import Mathlib

/-!
Verification of the admission-prediction core of the Hospital-Data-analytics
repository (`src/prediction/admission_predictor.py`) against its
natural-language specification.

The embedding below is a shallow model of `AdmissionPredictor`:
* dates are modelled as integers counting days since 1970-01-01 (the value
  semantics of pandas timestamps at day resolution); the proleptic Gregorian
  calendar accessors (`dt.year`, `dt.month`, `dt.dayofyear`,
  `dt.isocalendar().week`, `dt.dayofweek` with Monday = 0) are implemented by
  the standard civil-calendar conversion algorithms;
* a raw admission table is the list of its parsed `D.O.A` values, one
  `Option ℤ` per row (`none` models an unparseable date, i.e. `NaT` after
  `pd.to_datetime(..., errors := coerce)`);
* floating-point quantities (counts, means, model outputs, metrics) are
  modelled as rationals;
* the scikit-learn estimators are opaque: a trainer is any function from the
  training rows to a prediction function.  Everything proved here holds for
  every choice of trainers, which is exactly the knowledge available about
  the opaque fitted models.
-/

namespace HospitalAnalytics

/-- Civil-from-days conversion (proleptic Gregorian calendar): given a day
number relative to 1970-01-01, return `(year, month, day)`.  This is the
semantics of the pandas `dt.year/month/day` accessors used in
`_prepare_data` / `_add_temporal_features`. -/
def civilFromDays (z : ℤ) : ℤ × ℤ × ℤ :=
  let zd := z + 719468
  let era : ℤ := (if 0 ≤ zd then zd else zd - 146096) / 146097
  let doe : ℤ := zd - era * 146097
  let yoe : ℤ := (doe - doe / 1460 + doe / 36524 - doe / 146096) / 365
  let y : ℤ := yoe + era * 400
  let doy : ℤ := doe - (365 * yoe + yoe / 4 - yoe / 100)
  let mp : ℤ := (5 * doy + 2) / 153
  let d : ℤ := doy - (153 * mp + 2) / 5 + 1
  let m : ℤ := if mp < 10 then mp + 3 else mp - 9
  (if m ≤ 2 then y + 1 else y, m, d)

/-- Days-from-civil conversion, inverse direction of `civilFromDays`. -/
def daysFromCivil (y m d : ℤ) : ℤ :=
  let y2 := if m ≤ 2 then y - 1 else y
  let era : ℤ := (if 0 ≤ y2 then y2 else y2 - 399) / 400
  let yoe : ℤ := y2 - era * 400
  let mp : ℤ := if 2 < m then m - 3 else m + 9
  let doy : ℤ := (153 * mp + 2) / 5 + d - 1
  let doe : ℤ := yoe * 365 + yoe / 4 - yoe / 100 + doy
  era * 146097 + doe - 719468

/-- Year accessor (`dt.year`). -/
def yearOf (z : ℤ) : ℤ := (civilFromDays z).1

/-- Month accessor (`dt.month`). -/
def monthOf (z : ℤ) : ℤ := (civilFromDays z).2.1

/-- Day-of-month accessor (`dt.day`). -/
def dayOfMonth (z : ℤ) : ℤ := (civilFromDays z).2.2

/-- Weekday accessor with Monday = 0 (`dt.dayofweek`, `date.weekday()`).
1970-01-01 was a Thursday, weekday 3. -/
def dayOfWeek (z : ℤ) : ℤ := (z + 3) % 7

/-- Ordinal day of the year, 1-based (`dt.dayofyear`, `tm_yday`). -/
def dayOfYear (z : ℤ) : ℤ := z - daysFromCivil (yearOf z) 1 1 + 1

/-- ISO-8601 week number (`dt.isocalendar().week`, `date.isocalendar()[1]`):
the week number of the Thursday of the date's week. -/
def isoWeekOfYear (z : ℤ) : ℤ :=
  let thursday := z + 3 - dayOfWeek z
  (thursday - daysFromCivil (yearOf thursday) 1 1) / 7 + 1

/-- `AdmissionPredictor._get_season`: month to season code
(0 = Winter, 1 = Spring, 2 = Summer, 3 = Fall). -/
def get_season (month : ℤ) : ℤ :=
  if month = 12 ∨ month = 1 ∨ month = 2 then 0
  else if month = 3 ∨ month = 4 ∨ month = 5 then 1
  else if month = 6 ∨ month = 7 ∨ month = 8 then 2
  else 3

/-- Line 72 of `_prepare_data`:
`self.data.groupby('admission_date').size().reset_index(name='admission_count')`.
The input list holds the parsed `D.O.A` value of every raw row (`none` for an
unparseable date).  `groupby` drops `NaT` keys, sorts the remaining distinct
dates ascending, and counts the rows in each group. -/
def groupby_admission_date (doas : List (Option ℤ)) : List (ℤ × ℕ) :=
  let valid := doas.filterMap id
  (valid.dedup.insertionSort (· ≤ ·)).map fun d => (d, valid.count d)

/-- One row of `self.daily_admissions` after `_add_temporal_features`: the
date, its admission count, the derived calendar fields, and the lag /
rolling-mean columns (`none` models the `NaN` produced by `shift` /
`rolling` before enough history exists). -/
structure DailyRow where
  admission_date : ℤ
  admission_count : ℕ
  year : ℤ
  month : ℤ
  day : ℤ
  day_of_week : ℤ
  day_of_year : ℤ
  week_of_year : ℤ
  is_weekend : ℤ
  season : ℤ
  admission_count_lag_1 : Option ℚ
  admission_count_lag_3 : Option ℚ
  admission_count_lag_7 : Option ℚ
  admission_count_lag_14 : Option ℚ
  admission_count_lag_30 : Option ℚ
  admission_count_rolling_3 : Option ℚ
  admission_count_rolling_7 : Option ℚ
  admission_count_rolling_14 : Option ℚ
  admission_count_rolling_30 : Option ℚ
deriving Repr, DecidableEq

/-- `df['admission_count'].shift(k)` evaluated at row `i`: the count of row
`i - k`, `NaN` (`none`) while `i < k`. -/
def lagFeature (counts : List ℕ) (i k : ℕ) : Option ℚ :=
  if k ≤ i then some ((counts.getD (i - k) 0 : ℕ) : ℚ) else none

/-- `df['admission_count'].rolling(window=w).mean()` evaluated at row `i`:
the mean of rows `i - w + 1 .. i`, `NaN` (`none`) until the window is full. -/
def rollingMean (counts : List ℕ) (i w : ℕ) : Option ℚ :=
  if w ≤ i + 1 then
    some ((((counts.drop (i + 1 - w)).take w).map (fun c => (c : ℚ))).sum / (w : ℚ))
  else none

/-- `AdmissionPredictor._add_temporal_features` applied to the daily
admission-count table: derives the calendar columns from each date and
appends the lag columns for offsets {1,3,7,14,30} and the rolling-mean
columns for windows {3,7,14,30}. -/
def add_temporal_features (daily : List (ℤ × ℕ)) : List DailyRow :=
  let counts := daily.map Prod.snd
  daily.enum.map fun p =>
    let i := p.1
    let d := p.2.1
    { admission_date := d
      admission_count := p.2.2
      year := yearOf d
      month := monthOf d
      day := dayOfMonth d
      day_of_week := dayOfWeek d
      day_of_year := dayOfYear d
      week_of_year := isoWeekOfYear d
      is_weekend := if 5 ≤ dayOfWeek d then 1 else 0
      season := get_season (monthOf d)
      admission_count_lag_1 := lagFeature counts i 1
      admission_count_lag_3 := lagFeature counts i 3
      admission_count_lag_7 := lagFeature counts i 7
      admission_count_lag_14 := lagFeature counts i 14
      admission_count_lag_30 := lagFeature counts i 30
      admission_count_rolling_3 := rollingMean counts i 3
      admission_count_rolling_7 := rollingMean counts i 7
      admission_count_rolling_14 := rollingMean counts i 14
      admission_count_rolling_30 := rollingMean counts i 30 }

/-- `AdmissionPredictor._prepare_data`, lines 71-73: build the daily
aggregate from the parsed admission dates of the raw table, then add the
temporal features.  The result is the predictor's `self.daily_admissions`. -/
def prepare_data (doas : List (Option ℤ)) : List DailyRow :=
  add_temporal_features (groupby_admission_date doas)

/-- C1: the daily aggregate holds exactly the observed admission dates: its
date column is strictly increasing, a date appears iff some raw row parsed
to it, and each row's count is the number of raw rows with that date.  In
particular no zero-count row is ever inserted for an unobserved date. -/
theorem groupby_produces_observed_dates_only (doas : List (Option ℤ)) :
    ((groupby_admission_date doas).map Prod.fst).Pairwise (· < ·) ∧
      (∀ d : ℤ, d ∈ (groupby_admission_date doas).map Prod.fst ↔ some d ∈ doas) ∧
      ∀ p ∈ groupby_admission_date doas, p.2 = (doas.filterMap id).count p.1 := by
  set valid : List ℤ := doas.filterMap id with hvalid
  set s : List ℤ := valid.dedup.insertionSort (· ≤ ·) with hs
  have hfst : (groupby_admission_date doas).map Prod.fst = s := by
    show ((valid.dedup.insertionSort (· ≤ ·)).map fun d => (d, valid.count d)).map Prod.fst = s
    rw [List.map_map]
    exact List.map_id _
  have hsorted : s.Sorted (· ≤ ·) := List.sorted_insertionSort _ _
  have hnodup : s.Nodup :=
    ((List.perm_insertionSort (· ≤ ·) valid.dedup).nodup_iff).mpr (List.nodup_dedup _)
  refine ⟨?_, ?_, ?_⟩
  · rw [hfst]
    exact (List.Pairwise.and hsorted hnodup).imp fun hab => lt_of_le_of_ne hab.1 hab.2
  · intro d
    rw [hfst]
    have hmem : d ∈ s ↔ d ∈ valid := by
      rw [hs, List.mem_insertionSort, List.mem_dedup]
    rw [hmem, hvalid]
    constructor
    · rintro hd
      obtain ⟨a, ha, hae⟩ := List.mem_filterMap.mp hd
      rw [show a = some d from hae] at ha
      exact ha
    · intro hd
      exact List.mem_filterMap.mpr ⟨some d, hd, rfl⟩
  · intro p hp
    unfold groupby_admission_date at hp
    obtain ⟨d, _, rfl⟩ := List.mem_map.mp hp
    rfl

/-- C1 counterexample: an admission table with events on days 0 and 2 and no
event on day 1 yields a two-row aggregate — day 1 gets no zero-count row, so
the output has 2 rows, not the claimed `dN - d0 + 1 = 3`. -/
theorem groupby_gap_counterexample :
    groupby_admission_date [some 0, some 2] = [(0, 1), (2, 1)] ∧
      (groupby_admission_date [some 0, some 2]).length ≠ 3 := by
  decide

/-- Linear-interpolation evaluation at virtual index `h` over a (sorted)
list `s`, numpy's default percentile interpolation: with `i = ⌊h⌋`, the
result is `s[i] + (h - i) * (s[i+1] - s[i])`, indices clipped to the list. -/
def interpAt (s : List ℚ) (h : ℚ) : ℚ :=
  let n := s.length
  let i : ℤ := ⌊h⌋
  let lo := s.getD (min i.toNat (n - 1)) 0
  let hi := s.getD (min (i.toNat + 1) (n - 1)) 0
  lo + (h - i) * (hi - lo)

/-- `np.percentile(l, q)` with the default linear interpolation method:
sort the data and linearly interpolate at virtual index `q / 100 * (n - 1)`.
(The empty-input and out-of-range-`q` error paths live in
`checkedPercentile`; this is the value on the non-error path.) -/
def npPercentile (l : List ℚ) (q : ℚ) : ℚ :=
  let s := l.insertionSort (· ≤ ·)
  if s.length = 0 then 0
  else interpAt s (q * ((s.length : ℚ) - 1) / 100)

/-- The exceptions `np.percentile` can raise: `ValueError` for a percentile
outside `[0, 100]` (checked first), `IndexError` for empty data.  The
repository defines no exception classes of its own. -/
inductive PyError where
  | valueError (msg : String)
  | indexError (msg : String)
deriving Repr, DecidableEq

/-- `np.percentile` with its error behaviour: percentiles must lie in the
closed interval `[0, 100]` (note: 0 and 100 are both accepted). -/
def checkedPercentile (l : List ℚ) (q : ℚ) : Except PyError ℚ :=
  if 0 ≤ q ∧ q ≤ 100 then
    if l.length = 0 then .error (.indexError "cannot do a non-empty take from an empty axes")
    else .ok (npPercentile l q)
  else .error (.valueError "Percentiles must be in the range [0, 100]")

/-- An opaque fitted estimator: all the code relies on is `.predict` on a
feature row, plus optionally `.feature_importances_`. -/
structure Model where
  predict : List ℚ → ℚ
  feature_importances : Option (List ℚ) := none

/-- A trainer fits a model from `(feature row, target)` training pairs; the
concrete scikit-learn estimators are opaque instances of this. -/
def Trainer : Type := List (List ℚ × ℚ) → Model

/-- The three candidate estimators of `predict_daily_admissions`, in the
insertion order of the `models` dict. -/
structure TrainerSet where
  random_forest : Trainer
  gradient_boosting : Trainer
  linear_regression : Trainer

/-- `feature_cols`, lines 137-142 of `predict_daily_admissions`. -/
def feature_cols : List String :=
  ["month", "day_of_week", "day_of_year", "week_of_year",
   "is_weekend", "season", "admission_count_lag_1",
   "admission_count_lag_3", "admission_count_lag_7",
   "admission_count_rolling_3", "admission_count_rolling_7"]

/-- A row survives `dropna()` iff every lag and rolling column is defined
(the calendar columns are never `NaN` for a grouped date). -/
def DailyRow.isComplete (r : DailyRow) : Bool :=
  r.admission_count_lag_1.isSome && r.admission_count_lag_3.isSome &&
  r.admission_count_lag_7.isSome && r.admission_count_lag_14.isSome &&
  r.admission_count_lag_30.isSome && r.admission_count_rolling_3.isSome &&
  r.admission_count_rolling_7.isSome && r.admission_count_rolling_14.isSome &&
  r.admission_count_rolling_30.isSome

/-- The model-input row `clean_data[feature_cols]` for one daily row, in
the fixed `feature_cols` order.  Only applied to feature-complete rows, so
`getD 0` never actually defaults. -/
def DailyRow.featureVec (r : DailyRow) : List ℚ :=
  [(r.month : ℚ), (r.day_of_week : ℚ), (r.day_of_year : ℚ), (r.week_of_year : ℚ),
   (r.is_weekend : ℚ), (r.season : ℚ),
   r.admission_count_lag_1.getD 0, r.admission_count_lag_3.getD 0,
   r.admission_count_lag_7.getD 0,
   r.admission_count_rolling_3.getD 0, r.admission_count_rolling_7.getD 0]

/-- Arithmetic mean of a list of rationals (`Series.mean()`). -/
def listMean (l : List ℚ) : ℚ := l.sum / l.length

/-- `sklearn.metrics.mean_absolute_error`. -/
def mean_absolute_error (y yPred : List ℚ) : ℚ :=
  listMean ((y.zip yPred).map fun p => |p.1 - p.2|)

/-- `sklearn.metrics.mean_squared_error`. -/
def mean_squared_error (y yPred : List ℚ) : ℚ :=
  listMean ((y.zip yPred).map fun p => (p.1 - p.2) ^ 2)

/-- `sklearn.metrics.r2_score`, including its degenerate-variance
convention (constant truth: 1 for a perfect fit, else 0). -/
def r2_score (y yPred : List ℚ) : ℚ :=
  let ssRes := ((y.zip yPred).map fun p => (p.1 - p.2) ^ 2).sum
  let ssTot := (y.map fun v => (v - listMean y) ^ 2).sum
  if ssTot = 0 then (if ssRes = 0 then 1 else 0) else 1 - ssRes / ssTot

/-- Python's `max(iterable, key=f)`: fold keeping the incumbent unless the
challenger's key is strictly greater, so the first maximal element wins. -/
def pyMax {α : Type} (key : α → ℚ) (x : α) (xs : List α) : α :=
  xs.foldl (fun b a => if key b < key a then a else b) x

/-- One entry of `model_results`: the candidate's name, held-out metrics,
and fitted model. -/
structure ModelResult where
  name : String
  mae : ℚ
  mse : ℚ
  r2 : ℚ
  model : Model

/-- Line 189: `max(model_results.keys(), key=lambda x: model_results[x]['r2'])`
over the candidates in dict insertion order. -/
def selectBestModel (x : ModelResult) (xs : List ModelResult) : ModelResult :=
  pyMax (fun r => r.r2) x xs

/-- Python 3 `round` to the nearest integer, halves to the even neighbour. -/
def pyRound (q : ℚ) : ℤ :=
  let f := ⌊q⌋
  let r := q - f
  if r < 1 / 2 then f
  else if 1 / 2 < r then f + 1
  else if 2 ∣ f then f else f + 1

/-- One element of the `future_predictions` list: a future date and
`max(0, int(round(prediction)))`. -/
structure ForecastPoint where
  date : ℤ
  predicted_admissions : ℤ
deriving Repr, DecidableEq

/-- Line 226: `self.daily_admissions['admission_count'].tail(30).mean()` —
the mean of the last (up to) 30 observed daily counts. -/
def recent_values (daily : List DailyRow) : ℚ :=
  listMean ((daily.map fun r => (r.admission_count : ℚ)).drop (daily.length - 30))

/-- The feature row built for one future date (lines 214-236), already
projected through `feature_cols`: calendar features computed from the date,
and `recent_values` substituted for every lag and rolling feature. -/
def future_features (daily : List DailyRow) (d : ℤ) : List ℚ :=
  let rv := recent_values daily
  [(monthOf d : ℚ), (dayOfWeek d : ℚ), (dayOfYear d : ℚ), (isoWeekOfYear d : ℚ),
   (if 5 ≤ dayOfWeek d then (1 : ℚ) else 0), (get_season (monthOf d) : ℚ),
   rv, rv, rv, rv, rv]

/-- `self.daily_admissions['admission_date'].max()` (the table is nonempty
whenever this is reached; the default is irrelevant there). -/
def lastDate (daily : List DailyRow) : ℤ :=
  ((daily.map fun r => r.admission_date).max?).getD 0

/-- `AdmissionPredictor._generate_future_predictions`: one prediction per
day `last_date + 1 .. last_date + days_ahead`, each clamped via
`max(0, int(round(prediction)))`. -/
def generate_future_predictions (model : Model) (daily : List DailyRow)
    (days_ahead : ℕ) : List ForecastPoint :=
  let last := lastDate daily
  (List.range days_ahead).map fun (i : ℕ) =>
    let d := last + (i : ℤ) + 1
    { date := d
      predicted_admissions := max 0 (pyRound (model.predict (future_features daily d))) }

/-- `TEST_SIZE` from `src/config.py`. -/
def TEST_SIZE : ℚ := 1 / 5

/-- The per-candidate entry of the returned `model_metrics` mapping. -/
structure CandidateMetrics where
  name : String
  mae : ℚ
  mse : ℚ
  r2 : ℚ
deriving Repr, DecidableEq

/-- The successful return value of `predict_daily_admissions` (the parts
the specification constrains). -/
structure PredictOk where
  best_model : String
  model_metrics : List CandidateMetrics
  future_predictions : List ForecastPoint
deriving Repr, DecidableEq

/-- What `predict_daily_admissions` returns: either the error dictionary
`{'error': ...}` (a normal return value, not an exception) or the result
dictionary. -/
inductive PredictResult where
  | errorDict (msg : String)
  | ok (r : PredictOk)
deriving Repr, DecidableEq

/-- Fit one candidate and score it on the held-out tail (lines 168-186). -/
def evalCandidate (name : String) (t : Trainer) (train : List (List ℚ × ℚ))
    (Xtest : List (List ℚ)) (ytest : List ℚ) : ModelResult :=
  let m := t train
  let yPred := Xtest.map m.predict
  { name := name
    mae := mean_absolute_error ytest yPred
    mse := mean_squared_error ytest yPred
    r2 := r2_score ytest yPred
    model := m }

/-- `AdmissionPredictor.predict_daily_admissions`: drop incomplete rows;
with fewer than 30 left, return the error dictionary; otherwise split off a
chronologically trailing `ceil(n * TEST_SIZE)` test set (`shuffle=False`),
fit and score the three candidates, select by `max` on R², and generate the
future predictions with the selected model. -/
def predict_daily_admissions (ts : TrainerSet) (daily : List DailyRow)
    (days_ahead : ℕ) : PredictResult :=
  let clean := daily.filter fun r => r.isComplete
  if clean.length < 30 then .errorDict "Insufficient data for prediction"
  else
    let X := clean.map DailyRow.featureVec
    let y := clean.map fun r => (r.admission_count : ℚ)
    let nTest := (⌈(clean.length : ℚ) * TEST_SIZE⌉).toNat
    let nTrain := clean.length - nTest
    let train := (X.take nTrain).zip (y.take nTrain)
    let Xtest := X.drop nTrain
    let ytest := y.drop nTrain
    let rf := evalCandidate "random_forest" ts.random_forest train Xtest ytest
    let gb := evalCandidate "gradient_boosting" ts.gradient_boosting train Xtest ytest
    let lr := evalCandidate "linear_regression" ts.linear_regression train Xtest ytest
    let best := selectBestModel rf [gb, lr]
    .ok { best_model := best.name
          model_metrics := [rf, gb, lr].map fun r =>
            { name := r.name, mae := r.mae, mse := r.mse, r2 := r.r2 }
          future_predictions := generate_future_predictions best.model daily days_ahead }

/-- The busy-period threshold of `predict_busy_periods`, line 267:
`np.percentile(self.daily_admissions['admission_count'], threshold_percentile)`. -/
def busy_threshold (daily : List DailyRow) (q : ℚ) : ℚ :=
  npPercentile (daily.map fun r => (r.admission_count : ℚ)) q

/-- The busy-period report (the fields the specification constrains). -/
structure BusyReport where
  threshold : ℚ
  busy_day_count : ℕ
  busy_day_percentage : ℚ
  future_busy_periods : Option (List ForecastPoint)
  predicted_busy_days : Option ℕ

/-- `AdmissionPredictor.predict_busy_periods`: compute the percentile
threshold (this is where an out-of-range percentile escapes as the numpy
`ValueError`), classify historical days, then — only if the internal
90-day forecast did not return the error dictionary — classify the
forecast points against the same threshold. -/
def predict_busy_periods (ts : TrainerSet) (daily : List DailyRow)
    (threshold_percentile : ℚ) : Except PyError BusyReport :=
  match checkedPercentile (daily.map fun r => (r.admission_count : ℚ)) threshold_percentile with
  | .error e => .error e
  | .ok threshold =>
    let busy := daily.filter fun r => threshold ≤ (r.admission_count : ℚ)
    let base : BusyReport :=
      { threshold := threshold
        busy_day_count := busy.length
        busy_day_percentage := (busy.length : ℚ) / (daily.length : ℚ) * 100
        future_busy_periods := none
        predicted_busy_days := none }
    match predict_daily_admissions ts daily 90 with
    | .errorDict _ => .ok base
    | .ok r =>
      let fut := r.future_predictions.filter fun p => threshold ≤ (p.predicted_admissions : ℚ)
      .ok { base with future_busy_periods := some fut, predicted_busy_days := some fut.length }

/-- Python `int()` truncation toward zero on a rational. -/
def pyInt (q : ℚ) : ℤ := if 0 ≤ q then ⌊q⌋ else -⌊-q⌋

/-- The `peak_requirements` part of `analyze_capacity_requirements`. -/
structure CapacityReport where
  max_daily_admissions : ℤ
  percentile_95 : ℤ
  percentile_90 : ℤ
  percentile_75 : ℤ

/-- `AdmissionPredictor.analyze_capacity_requirements` (peak metrics):
pure aggregation over the historical daily counts, no model involved. -/
def analyze_capacity_requirements (daily : List DailyRow) : CapacityReport :=
  let counts := daily.map fun r => (r.admission_count : ℚ)
  { max_daily_admissions := (((daily.map fun r => r.admission_count).max?).getD 0 : ℕ)
    percentile_95 := pyInt (npPercentile counts 95)
    percentile_90 := pyInt (npPercentile counts 90)
    percentile_75 := pyInt (npPercentile counts 75) }

/-- One raw row of `self.data` after `_prepare_data` added the derived
per-event calendar columns (lines 53-66); the `D.O.A`-derived fields are
`none` exactly when the date failed to parse. -/
structure PreparedEvent where
  doa : Option ℤ
  year : Option ℤ
  month : Option ℤ
  day : Option ℤ
  day_of_week : Option ℤ
  is_weekend : Option ℤ
  season : Option ℤ
deriving Repr, DecidableEq

/-- The column derivations `_prepare_data` applies to one row of the
predictor's private copy `self.data`. -/
def prepareEvent (o : Option ℤ) : PreparedEvent :=
  { doa := o
    year := o.map yearOf
    month := o.map monthOf
    day := o.map dayOfMonth
    day_of_week := o.map dayOfWeek
    is_weekend := o.map fun d => if 5 ≤ dayOfWeek d then 1 else 0
    season := o.map fun d => get_season (monthOf d) }

/-- The mutable state visible to a caller of `AdmissionPredictor`: the
caller's own admission table (identified with its `D.O.A` column) next to
the predictor's private copy `self.data` and `self.daily_admissions`.  All
in-place column assignments of `_prepare_data` happen on the copy. -/
structure PredictorWorld where
  caller : List (Option ℤ)
  self_data : List PreparedEvent
  daily_admissions : List DailyRow

/-- `AdmissionPredictor.__init__`: `self.data = admission_data.copy()`
snapshots the caller's table by value, then `_prepare_data` derives
`self.data`'s columns and `self.daily_admissions` from the copy only. -/
def initPredictor (admission_data : List (Option ℤ)) : PredictorWorld :=
  { caller := admission_data
    self_data := admission_data.map prepareEvent
    daily_admissions := prepare_data admission_data }

/-- `predict_daily_admissions` as a state transformer: it reads
`self.daily_admissions` and writes nothing. -/
def predictDailyOp (ts : TrainerSet) (w : PredictorWorld)
    (days_ahead : ℕ) : PredictorWorld × PredictResult :=
  (w, predict_daily_admissions ts w.daily_admissions days_ahead)

/-- `predict_busy_periods` as a state transformer: read-only on the world. -/
def predictBusyOp (ts : TrainerSet) (w : PredictorWorld)
    (q : ℚ) : PredictorWorld × Except PyError BusyReport :=
  (w, predict_busy_periods ts w.daily_admissions q)

/-- `analyze_capacity_requirements` as a state transformer: read-only. -/
def analyzeCapacityOp (w : PredictorWorld) : PredictorWorld × CapacityReport :=
  (w, analyze_capacity_requirements w.daily_admissions)

/-- A trivial opaque model, standing in for an arbitrary fitted estimator
in concrete instantiations. -/
def demoModel : Model := { predict := fun _ => 0 }

/-- A trainer that always returns `demoModel`. -/
def demoTrainer : Trainer := fun _ => demoModel

/-- A trainer set of trivial models for concrete instantiations. -/
def demoTrainerSet : TrainerSet :=
  { random_forest := demoTrainer
    gradient_boosting := demoTrainer
    linear_regression := demoTrainer }

/-- A trainer whose fitted model predicts the constant `c`. -/
def constTrainer (c : ℚ) : Trainer := fun _ => { predict := fun _ => c }

/-- A tiny three-event table: two distinct admission dates. -/
def demoDaily : List DailyRow := prepare_data [some 0, some 1, some 1]

/-- Thirty consecutive single-admission days. -/
def demoDaily30 : List DailyRow :=
  prepare_data ((List.range 30).map fun (i : ℕ) => some (i : ℤ))

/-- C2 (amended): with fewer than 30 feature-complete rows,
`predict_daily_admissions` returns the error dictionary
`{'error': 'Insufficient data for prediction'}` as a normal value — it does
not raise anything, and no `InsufficientDataError` exists in the code. -/
theorem predict_insufficient_data_returns_error_dict (ts : TrainerSet)
    (daily : List DailyRow) (days_ahead : ℕ)
    (hlt : (daily.filter fun r => r.isComplete).length < 30) :
    predict_daily_admissions ts daily days_ahead
      = .errorDict "Insufficient data for prediction" := by
  simp [predict_daily_admissions, hlt]

/-- Witness for C2's amended theorem at a concrete two-day table. -/
theorem predict_insufficient_data_returns_error_dict_witness :
    (demoDaily.filter fun r => r.isComplete).length < 30 ∧
      predict_daily_admissions demoTrainerSet demoDaily 30
        = .errorDict "Insufficient data for prediction" :=
  ⟨by decide, predict_insufficient_data_returns_error_dict demoTrainerSet demoDaily 30 (by decide)⟩

/-- C2 counterexample: on a concrete table with fewer than 30
feature-complete rows, the call returns (rather than raises) — its value is
the error dictionary, refuting the claim that an `InsufficientDataError`
exception reaches the caller. -/
theorem predict_insufficient_data_counterexample :
    predict_daily_admissions demoTrainerSet demoDaily 30
      = .errorDict "Insufficient data for prediction" := by
  decide

/-- C3 (amended): `predict_busy_periods` on a nonempty table succeeds
exactly when the percentile lies in the closed interval `[0, 100]`; outside
it the numpy `ValueError` escapes (the code defines no
`InvalidParameterError`), and `P = 0` is accepted. -/
theorem busy_periods_percentile_validity (ts : TrainerSet) (daily : List DailyRow)
    (q : ℚ) (hne : daily ≠ []) :
    (predict_busy_periods ts daily q).isOk = true ↔ (0 ≤ q ∧ q ≤ 100) := by
  have hlen : ¬ (daily.map fun r => (r.admission_count : ℚ)).length = 0 := by
    simpa [List.length_eq_zero] using hne
  by_cases hq : 0 ≤ q ∧ q ≤ 100
  · have hcp : checkedPercentile (daily.map fun r => (r.admission_count : ℚ)) q
        = .ok (npPercentile (daily.map fun r => (r.admission_count : ℚ)) q) := by
      unfold checkedPercentile
      rw [if_pos hq, if_neg hlen]
    simp only [predict_busy_periods, hcp]
    cases hpda : predict_daily_admissions ts daily 90 <;> simp [Except.isOk, hq] <;> rfl
  · have hcp : checkedPercentile (daily.map fun r => (r.admission_count : ℚ)) q
        = .error (.valueError "Percentiles must be in the range [0, 100]") := by
      unfold checkedPercentile
      rw [if_neg hq]
    simp only [predict_busy_periods, hcp]
    simp [Except.isOk, hq]
    rfl

/-- Witness for C3's amended theorem at a concrete table and percentile. -/
theorem busy_periods_percentile_validity_witness :
    demoDaily ≠ [] ∧
      ((predict_busy_periods demoTrainerSet demoDaily 75).isOk = true
        ↔ (0 ≤ (75 : ℚ) ∧ (75 : ℚ) ≤ 100)) :=
  ⟨by decide, busy_periods_percentile_validity demoTrainerSet demoDaily 75 (by decide)⟩

/-- C3 counterexample: percentile 0 — outside the claim's valid range
`(0, 100]` — does not fail at all: the busy-period analysis succeeds. -/
theorem busy_periods_percentile_zero_counterexample :
    (predict_busy_periods demoTrainerSet demoDaily 0).isOk = true := by
  decide

/-- C9 (amended): the model-input columns are the six calendar fields plus
the lag features at offsets {1,3,7} and the rolling means at windows {3,7}
only, in that fixed order, excluding the target `admission_count`; the
training rows and the future-date rows have exactly this arity. -/
theorem feature_cols_spec :
    feature_cols
        = ["month", "day_of_week", "day_of_year", "week_of_year", "is_weekend", "season"]
          ++ (["1", "3", "7"].map fun k => "admission_count_lag_" ++ k)
          ++ (["3", "7"].map fun w => "admission_count_rolling_" ++ w)
      ∧ "admission_count" ∉ feature_cols
      ∧ (∀ r : DailyRow, r.featureVec.length = feature_cols.length)
      ∧ ∀ (daily : List DailyRow) (d : ℤ),
          (future_features daily d).length = feature_cols.length :=
  ⟨by decide, by decide, fun _ => rfl, fun _ _ => rfl⟩

/-- C9 counterexample: the lag-14/30 and rolling-14/30 columns are computed
in the feature table but are **not** among the model-input columns,
refuting the claim that every lag offset in {1,3,7,14,30} and every rolling
window in {3,7,14,30} is fed to the model. -/
theorem feature_cols_missing_lags_counterexample :
    "admission_count_lag_14" ∉ feature_cols ∧
      "admission_count_lag_30" ∉ feature_cols ∧
      "admission_count_rolling_14" ∉ feature_cols ∧
      "admission_count_rolling_30" ∉ feature_cols := by
  decide

/-- Python's `max` with a key keeps the incumbent on ties, so it returns
the element whose key is maximal and, among those, the earliest. -/
theorem pyMax_is_first_max {α : Type} (key : α → ℚ) (x : α) (xs : List α) :
    (∀ a ∈ x :: xs, key a ≤ key (pyMax key x xs)) ∧
      (pyMax key x xs = x ∨
        ∃ pre suf, xs = pre ++ pyMax key x xs :: suf ∧
          key x < key (pyMax key x xs) ∧
          ∀ a ∈ pre, key a < key (pyMax key x xs)) := by
  induction xs generalizing x with
  | nil =>
    refine ⟨?_, Or.inl rfl⟩
    intro a ha
    cases ha with
    | head => exact le_refl _
    | tail _ h => exact absurd h (List.not_mem_nil a)
  | cons b t ih =>
    have hstep : pyMax key x (b :: t) = pyMax key (if key x < key b then b else x) t := rfl
    by_cases hb : key x < key b
    · rw [hstep, if_pos hb]
      obtain ⟨ih1, ih2⟩ := ih b
      refine ⟨?_, ?_⟩
      · intro a ha
        cases ha with
        | head => exact (le_of_lt hb).trans (ih1 b (List.mem_cons_self b t))
        | tail _ ha' => exact ih1 a ha'
      · right
        rcases ih2 with heq | ⟨pre, suf, hsp, hlt, hpre⟩
        · refine ⟨[], t, ?_, ?_, ?_⟩
          · rw [heq]
            rfl
          · rw [heq]
            exact hb
          · intro a ha
            exact absurd ha (List.not_mem_nil a)
        · refine ⟨b :: pre, suf, ?_, hb.trans hlt, ?_⟩
          · rw [List.cons_append, ← hsp]
          · intro a ha
            cases ha with
            | head => exact hlt
            | tail _ ha' => exact hpre a ha'
    · rw [hstep, if_neg hb]
      have hbx : key b ≤ key x := le_of_not_lt hb
      obtain ⟨ih1, ih2⟩ := ih x
      refine ⟨?_, ?_⟩
      · intro a ha
        cases ha with
        | head => exact ih1 x (List.mem_cons_self x t)
        | tail _ ha' =>
          cases ha' with
          | head => exact hbx.trans (ih1 x (List.mem_cons_self x t))
          | tail _ ha'' => exact ih1 a (List.mem_cons_of_mem x ha'')
      · rcases ih2 with heq | ⟨pre, suf, hsp, hlt, hpre⟩
        · exact Or.inl heq
        · right
          refine ⟨b :: pre, suf, ?_, hlt, ?_⟩
          · rw [List.cons_append, ← hsp]
          · intro a ha
            cases ha with
            | head => exact lt_of_le_of_lt hbx hlt
            | tail _ ha' => exact hpre a ha'

/-- C4 (amended): the selected candidate has the maximal held-out R², and
among equal-R² candidates the earliest in the fixed insertion order
(random_forest, gradient_boosting, linear_regression) is chosen — MAE is
never consulted as a tie-breaker. -/
theorem select_best_model_first_max_r2 (x : ModelResult) (xs : List ModelResult) :
    (∀ r ∈ x :: xs, r.r2 ≤ (selectBestModel x xs).r2) ∧
      ∃ pre suf, x :: xs = pre ++ selectBestModel x xs :: suf ∧
        ∀ r ∈ pre, r.r2 < (selectBestModel x xs).r2 := by
  obtain ⟨h1, h2⟩ := pyMax_is_first_max (fun r => r.r2) x xs
  refine ⟨h1, ?_⟩
  rcases h2 with heq | ⟨pre, suf, hsp, hlt, hpre⟩
  · refine ⟨[], xs, ?_, ?_⟩
    · show x :: xs = selectBestModel x xs :: xs
      rw [show selectBestModel x xs = x from heq]
    · intro r hr
      exact absurd hr (List.not_mem_nil r)
  · refine ⟨x :: pre, suf, ?_, ?_⟩
    · show x :: xs = (x :: pre) ++ pyMax (fun r => r.r2) x xs :: suf
      rw [List.cons_append, ← hsp]
    · intro r hr
      cases hr with
      | head => exact hlt
      | tail _ hr' => exact hpre r hr'

/-- A candidate table with an exact R² tie between the first two candidates
and a strictly smaller MAE on the second: such ties are reachable (two
fits with equal residual sum of squares but different absolute errors on
the same held-out tail have equal R² and different MAE). -/
def cexRF : ModelResult :=
  { name := "random_forest", mae := 2, mse := 4, r2 := 0, model := demoModel }

/-- Tied-R² candidate with the strictly lowest MAE. -/
def cexGB : ModelResult :=
  { name := "gradient_boosting", mae := 1, mse := 1, r2 := 0, model := demoModel }

/-- A strictly worse third candidate. -/
def cexLR : ModelResult :=
  { name := "linear_regression", mae := 9, mse := 81, r2 := -1, model := demoModel }

/-- C4 counterexample: on this candidate table the first two candidates tie
on R² and gradient_boosting has the strictly lowest MAE, yet the selection
of line 189 picks random_forest — the earlier key — refuting the claimed
lowest-MAE tie-break. -/
theorem select_best_model_tie_counterexample :
    (selectBestModel cexRF [cexGB, cexLR]).name = "random_forest" ∧
      cexRF.r2 = cexGB.r2 ∧ cexGB.mae < cexRF.mae := by
  refine ⟨?_, rfl, ?_⟩
  · rfl
  · show (1 : ℚ) < 2
    norm_num

/-- C5: the forecast has one point per horizon day — its dates are exactly
`last_date + 1, …, last_date + h`, so the length equals the horizon, the
first date is the day after the last observed date, and the dates are
strictly increasing with no gaps. -/
theorem future_predictions_dates (m : Model) (daily : List DailyRow) (h : ℕ)
    (h1 : 1 ≤ h) :
    ((generate_future_predictions m daily h).map fun p => p.date)
        = (List.range h).map (fun (i : ℕ) => lastDate daily + (i : ℤ) + 1) ∧
      (generate_future_predictions m daily h).length = h ∧
      (((generate_future_predictions m daily h).map fun p => p.date).head?
        = some (lastDate daily + 1)) ∧
      ((generate_future_predictions m daily h).map fun p => p.date).Pairwise (· < ·) := by
  have hmap : ((generate_future_predictions m daily h).map fun p => p.date)
      = (List.range h).map (fun (i : ℕ) => lastDate daily + (i : ℤ) + 1) := by
    simp only [generate_future_predictions, List.map_map]
    rfl
  refine ⟨hmap, ?_, ?_, ?_⟩
  · have hl := congrArg List.length hmap
    rw [List.length_map, List.length_map, List.length_range] at hl
    exact hl
  · rw [hmap]
    cases h with
    | zero => exact (Nat.not_succ_le_zero 0 h1).elim
    | succ k =>
      rw [List.range_succ_eq_map]
      simp
  · rw [hmap]
    refine List.pairwise_map.mpr (List.Pairwise.imp ?_ (List.pairwise_lt_range h))
    intro a b hab
    omega

/-- Witness for C5 at a concrete model, table, and three-day horizon. -/
theorem future_predictions_dates_witness :
    1 ≤ 3 ∧
      (((generate_future_predictions demoModel demoDaily 3).map fun p => p.date)
          = (List.range 3).map (fun (i : ℕ) => lastDate demoDaily + (i : ℤ) + 1) ∧
        (generate_future_predictions demoModel demoDaily 3).length = 3 ∧
        (((generate_future_predictions demoModel demoDaily 3).map fun p => p.date).head?
          = some (lastDate demoDaily + 1)) ∧
        ((generate_future_predictions demoModel demoDaily 3).map fun p => p.date).Pairwise
          (· < ·)) :=
  ⟨by norm_num, future_predictions_dates demoModel demoDaily 3 (by norm_num)⟩

/-- C6: every forecast point's count is obtained by rounding the raw model
prediction to an integer and clamping at zero, hence is a non-negative
integer. -/
theorem forecast_counts_clamped (m : Model) (daily : List DailyRow) (h : ℕ) :
    ∀ p ∈ generate_future_predictions m daily h,
      p.predicted_admissions
          = max 0 (pyRound (m.predict (future_features daily p.date))) ∧
        0 ≤ p.predicted_admissions := by
  intro p hp
  simp only [generate_future_predictions, List.mem_map] at hp
  obtain ⟨i, _, rfl⟩ := hp
  exact ⟨rfl, le_max_left 0 _⟩

/-- The single forecast point of a one-day horizon over an empty history,
used to instantiate C6's theorem. -/
def demoPoint : ForecastPoint :=
  { date := lastDate [] + ((0 : ℕ) : ℤ) + 1
    predicted_admissions :=
      max 0 (pyRound (demoModel.predict
        (future_features [] (lastDate [] + ((0 : ℕ) : ℤ) + 1)))) }

/-- Witness for C6 at a concrete forecast point. -/
theorem forecast_counts_clamped_witness :
    demoPoint ∈ generate_future_predictions demoModel [] 1 ∧
      (demoPoint.predicted_admissions
          = max 0 (pyRound (demoModel.predict (future_features [] demoPoint.date))) ∧
        0 ≤ demoPoint.predicted_admissions) := by
  have hmem : demoPoint ∈ generate_future_predictions demoModel [] 1 := by
    show demoPoint ∈ [demoPoint]
    exact List.mem_singleton_self _
  exact ⟨hmem, forecast_counts_clamped demoModel [] 1 demoPoint hmem⟩

/-- C8: the `i`-th forecast point is a function of the model, the observed
table and the date alone — never of earlier per-day predictions — and the
feature row fed to the model carries one and the same value, the mean of
the trailing 30 observed daily counts, in all five lag/rolling positions. -/
theorem future_lag_inputs_trailing_mean (m : Model) (daily : List DailyRow)
    (h i : ℕ) (hi : i < h) (hlen : 30 ≤ daily.length) :
    (generate_future_predictions m daily h)[i]?
        = some { date := lastDate daily + (i : ℤ) + 1
                 predicted_admissions := max 0 (pyRound (m.predict
                    (future_features daily (lastDate daily + (i : ℤ) + 1)))) } ∧
      (future_features daily (lastDate daily + (i : ℤ) + 1)).drop 6
          = List.replicate 5 (recent_values daily) ∧
      ((daily.map fun r => (r.admission_count : ℚ)).drop (daily.length - 30)).length = 30 ∧
      recent_values daily
          = ((daily.map fun r => (r.admission_count : ℚ)).drop (daily.length - 30)).sum / 30 := by
  have h30 : ((daily.map fun r => (r.admission_count : ℚ)).drop
      (daily.length - 30)).length = 30 := by
    rw [List.length_drop, List.length_map]
    omega
  refine ⟨?_, rfl, h30, ?_⟩
  · simp only [generate_future_predictions]
    rw [List.getElem?_map, List.getElem?_range hi]
    rfl
  · unfold recent_values listMean
    rw [h30]
    norm_num

/-- Witness for C8 at thirty observed days and the first horizon day. -/
theorem future_lag_inputs_trailing_mean_witness :
    ((0 : ℕ) < 1 ∧ 30 ≤ demoDaily30.length) ∧
      ((generate_future_predictions demoModel demoDaily30 1)[(0 : ℕ)]?
          = some { date := lastDate demoDaily30 + ((0 : ℕ) : ℤ) + 1
                   predicted_admissions := max 0 (pyRound (demoModel.predict
                      (future_features demoDaily30
                        (lastDate demoDaily30 + ((0 : ℕ) : ℤ) + 1)))) } ∧
        (future_features demoDaily30
            (lastDate demoDaily30 + ((0 : ℕ) : ℤ) + 1)).drop 6
            = List.replicate 5 (recent_values demoDaily30) ∧
        ((demoDaily30.map fun r => (r.admission_count : ℚ)).drop
            (demoDaily30.length - 30)).length = 30 ∧
        recent_values demoDaily30
            = ((demoDaily30.map fun r => (r.admission_count : ℚ)).drop
                (demoDaily30.length - 30)).sum / 30) :=
  ⟨⟨by norm_num, by decide⟩,
    future_lag_inputs_trailing_mean demoModel demoDaily30 1 0 (by norm_num) (by decide)⟩

/-- C10: the constructor snapshots the caller's table by value and every
public operation is read-only on the world, so the caller-supplied
admission table is never mutated. -/
theorem public_ops_do_not_mutate_caller (ts : TrainerSet)
    (admission_data : List (Option ℤ)) (days_ahead : ℕ) (q : ℚ) :
    (initPredictor admission_data).caller = admission_data ∧
      ∀ w : PredictorWorld,
        (predictDailyOp ts w days_ahead).1 = w ∧
          (predictBusyOp ts w q).1 = w ∧
          (analyzeCapacityOp w).1 = w :=
  ⟨rfl, fun _ => ⟨rfl, rfl, rfl⟩⟩

/-- In a `≤`-sorted list, `getD` with any default is monotone on in-range
indices. -/
theorem sorted_getD_mono {s : List ℚ} (hs : s.Sorted (· ≤ ·)) {j k : ℕ}
    (hjk : j ≤ k) (hk : k < s.length) : s.getD j 0 ≤ s.getD k 0 := by
  have hj : j < s.length := lt_of_le_of_lt hjk hk
  rw [List.getD_eq_getElem s 0 hj, List.getD_eq_getElem s 0 hk]
  exact hs.rel_get_of_le (Fin.mk_le_mk.mpr hjk)

/-- Linear interpolation over a sorted list is monotone in the virtual
index on the in-range interval `[0, n − 1]`. -/
theorem interpAt_mono (s : List ℚ) (hs : s.Sorted (· ≤ ·)) (hne : s ≠ [])
    (h1 h2 : ℚ) (h0 : 0 ≤ h1) (h12 : h1 ≤ h2) (hub : h2 ≤ (s.length : ℚ) - 1) :
    interpAt s h1 ≤ interpAt s h2 := by
  have hn : 1 ≤ s.length := List.length_pos.mpr hne
  have hi1nn : 0 ≤ ⌊h1⌋ := Int.le_floor.mpr (by exact_mod_cast h0)
  have hi12 : ⌊h1⌋ ≤ ⌊h2⌋ := Int.floor_le_floor h12
  have hub2 : ⌊h2⌋ ≤ (s.length : ℤ) - 1 := by
    have hfl := Int.floor_le_floor hub
    rwa [show ((s.length : ℚ) - 1) = (((s.length : ℤ) - 1 : ℤ) : ℚ) by push_cast; ring,
      Int.floor_intCast] at hfl
  have hub1 : ⌊h1⌋ ≤ (s.length : ℤ) - 1 := le_trans hi12 hub2
  have ht1 : ⌊h1⌋.toNat ≤ s.length - 1 := by omega
  have ht2 : ⌊h2⌋.toNat ≤ s.length - 1 := by omega
  have hf1lo : 0 ≤ h1 - ⌊h1⌋ := by
    have := Int.floor_le h1
    linarith
  have hf1hi : h1 - ⌊h1⌋ ≤ 1 := by
    have := Int.lt_floor_add_one h1
    linarith
  have hf2lo : 0 ≤ h2 - ⌊h2⌋ := by
    have := Int.floor_le h2
    linarith
  have hmono : ∀ j k : ℕ, j ≤ k → k ≤ s.length - 1 → s.getD j 0 ≤ s.getD k 0 := by
    intro j k hjk hkub
    exact sorted_getD_mono hs hjk (by omega)
  have e1 : interpAt s h1
      = s.getD ⌊h1⌋.toNat 0 + (h1 - ⌊h1⌋) *
          (s.getD (min (⌊h1⌋.toNat + 1) (s.length - 1)) 0 - s.getD ⌊h1⌋.toNat 0) := by
    simp only [interpAt]
    rw [min_eq_left ht1]
  have e2 : interpAt s h2
      = s.getD ⌊h2⌋.toNat 0 + (h2 - ⌊h2⌋) *
          (s.getD (min (⌊h2⌋.toNat + 1) (s.length - 1)) 0 - s.getD ⌊h2⌋.toNat 0) := by
    simp only [interpAt]
    rw [min_eq_left ht2]
  rw [e1, e2]
  by_cases hcase : ⌊h1⌋ = ⌊h2⌋
  · rw [hcase]
    have hΔ : s.getD ⌊h2⌋.toNat 0 ≤ s.getD (min (⌊h2⌋.toNat + 1) (s.length - 1)) 0 :=
      hmono _ _ (le_min (Nat.le_succ _) ht2) (min_le_right _ _)
    have hstep : h1 - ⌊h2⌋ ≤ h2 - ⌊h2⌋ := by linarith
    have hmul := mul_le_mul_of_nonneg_right hstep (sub_nonneg.mpr hΔ)
    linarith
  · have hlt : ⌊h1⌋ < ⌊h2⌋ := lt_of_le_of_ne hi12 hcase
    have hsucc : ⌊h1⌋.toNat + 1 ≤ ⌊h2⌋.toNat := by omega
    have hΔ1 : s.getD ⌊h1⌋.toNat 0 ≤ s.getD (min (⌊h1⌋.toNat + 1) (s.length - 1)) 0 :=
      hmono _ _ (le_min (Nat.le_succ _) ht1) (min_le_right _ _)
    have b1 : s.getD ⌊h1⌋.toNat 0 + (h1 - ⌊h1⌋) *
        (s.getD (min (⌊h1⌋.toNat + 1) (s.length - 1)) 0 - s.getD ⌊h1⌋.toNat 0)
        ≤ s.getD (min (⌊h1⌋.toNat + 1) (s.length - 1)) 0 := by
      have hmul := mul_le_mul_of_nonneg_right hf1hi (sub_nonneg.mpr hΔ1)
      linarith
    have b2 : s.getD (min (⌊h1⌋.toNat + 1) (s.length - 1)) 0 ≤ s.getD ⌊h2⌋.toNat 0 :=
      hmono _ _ (le_trans (min_le_left _ _) hsucc) ht2
    have hΔ2 : s.getD ⌊h2⌋.toNat 0 ≤ s.getD (min (⌊h2⌋.toNat + 1) (s.length - 1)) 0 :=
      hmono _ _ (le_min (Nat.le_succ _) ht2) (min_le_right _ _)
    have b3 : s.getD ⌊h2⌋.toNat 0
        ≤ s.getD ⌊h2⌋.toNat 0 + (h2 - ⌊h2⌋) *
          (s.getD (min (⌊h2⌋.toNat + 1) (s.length - 1)) 0 - s.getD ⌊h2⌋.toNat 0) :=
      le_add_of_nonneg_right (mul_nonneg hf2lo (sub_nonneg.mpr hΔ2))
    linarith

/-- C7: for fixed historical daily counts, the busy-period threshold is
monotonically non-decreasing in the requested percentile. -/
theorem busy_threshold_monotone (daily : List DailyRow) (q1 q2 : ℚ)
    (h0 : 0 ≤ q1) (h12 : q1 ≤ q2) (h100 : q2 ≤ 100) :
    busy_threshold daily q1 ≤ busy_threshold daily q2 := by
  simp only [busy_threshold, npPercentile]
  set s := (daily.map fun r => (r.admission_count : ℚ)).insertionSort (· ≤ ·) with hsdef
  by_cases hz : s.length = 0
  · rw [if_pos hz, if_pos hz]
  · rw [if_neg hz, if_neg hz]
    have hsorted : s.Sorted (· ≤ ·) := List.sorted_insertionSort _ _
    have hne : s ≠ [] := fun hnil => hz (by rw [hnil]; rfl)
    have hn1 : 1 ≤ s.length := List.length_pos.mpr hne
    have hnn : (0 : ℚ) ≤ (s.length : ℚ) - 1 := by
      have hc : (1 : ℚ) ≤ (s.length : ℚ) := by exact_mod_cast hn1
      linarith
    apply interpAt_mono s hsorted hne
    · exact div_nonneg (mul_nonneg h0 hnn) (by norm_num)
    · have hmul := mul_le_mul_of_nonneg_right h12 hnn
      linarith
    · have hmul := mul_le_mul_of_nonneg_right h100 hnn
      linarith

/-- Witness for C7 at a concrete table and percentiles 50 and 75. -/
theorem busy_threshold_monotone_witness :
    busy_threshold demoDaily 50 ≤ busy_threshold demoDaily 75 :=
  busy_threshold_monotone demoDaily 50 75 (by norm_num) (by norm_num) (by norm_num)

end HospitalAnalytics
